import Mathlib

/-!
Verification of the ERA5 precipitation batch-retrieval pipeline
(`get_Total_Rain_from_EPA5.py`, flat draft, and
`script/get_Total_Rain_from_EPA5.py`, class draft `ERA5RainRetriever`).

The Python sources are shallowly embedded below: coordinates and
precipitation values are rationals (`ℚ`), the filesystem is an explicit
association-list state, the external data service is an oracle mapping a
mesh id to a fetch outcome, and every fallible operation returns `Except`.
-/

attribute [local semireducible] Rat.add Rat.mul Rat.inv Rat.sub Rat.ofScientific

namespace GeoCmd

/-! ### Python numeric formatting over ℚ

Python's builtin `round` and the `f"{x:.4f}"` fixed-point format both round
half to even.  The inputs appearing in the claims are exact decimals, so the
rational model agrees with the binary-float behaviour of the source.
-/

/-- Floor of a rational, computed with integer floor division. -/
def ratFloor (q : ℚ) : ℤ := Int.fdiv q.num (q.den : ℤ)

/-- Round half to even (Python `round` semantics) of a rational. -/
def roundHalfEven (q : ℚ) : ℤ :=
  let f : ℤ := ratFloor q
  let r : ℚ := q - (f : ℚ)
  if r < 1/2 then f
  else if (1 : ℚ)/2 < r then f + 1
  else if f % 2 = 0 then f else f + 1

/-- Left-pad the decimal digits of `n` with zeros to `d` characters. -/
def natPad (d : ℕ) (n : ℕ) : String :=
  let s := toString n
  String.mk (List.replicate (d - s.length) '0') ++ s

/-- Fixed-point formatting of a nonnegative rational with `d` fractional
digits, as in Python `f"{q:.df}"`. -/
def fmtFixedNN (d : ℕ) (q : ℚ) : String :=
  let n : ℤ := roundHalfEven (q * (10 : ℚ) ^ d)
  let m : ℕ := n.toNat
  toString (m / 10 ^ d) ++ "." ++ natPad d (m % 10 ^ d)

/-- Fixed-point formatting of a rational with `d` fractional digits. -/
def fmtFixed (d : ℕ) (q : ℚ) : String :=
  if q < 0 then "-" ++ fmtFixedNN d (-q) else fmtFixedNN d q

/-! ### The two `get_mesh_id` drafts -/

/-- Model of `ERA5RainRetriever.get_mesh_id` (class draft, `MESH_SIZE_KM = 20`):
`return f"{lat:.4f}_{lon:.4f}_20km"` — the id is formed from the raw
coordinates; the bounds computed on the previous line are discarded and no
rounding to a grid centroid takes place. -/
def scriptGetMeshId (lat lon : ℚ) : String :=
  fmtFixed 4 lat ++ "_" ++ fmtFixed 4 lon ++ "_20km"

/-- The `GRID_LAT_DELTA` constant of the flat draft (about 30 km north-south). -/
def GRID_LAT_DELTA : ℚ := 27 / 100

/-- The `GRID_LON_DELTA` constant of the flat draft (about 30 km east-west). -/
def GRID_LON_DELTA : ℚ := 37 / 100

/-- Model of `get_mesh_id` of the flat draft: rounds the point to the nearest grid
centroid (`round(lat / DELTA) * DELTA`) before forming the id string. -/
def flatGetMeshId (lat lon : ℚ) : String :=
  let latCenter : ℚ := (roundHalfEven (lat / GRID_LAT_DELTA) : ℚ) * GRID_LAT_DELTA
  let lonCenter : ℚ := (roundHalfEven (lon / GRID_LON_DELTA) : ℚ) * GRID_LON_DELTA
  fmtFixed 3 latCenter ++ "_" ++ fmtFixed 3 lonCenter

/-- C1: the class draft's `get_mesh_id` (the 20 km cell size of the claim)
does not round to a grid centroid: the two concrete points of the claim,
`(43.0621, 141.3544)` and `(43.0623, 141.3545)`, receive distinct cell ids
even though they lie within half a cell of each other, contradicting the
claim; the flat draft's rounding `get_mesh_id` does collapse them. -/
theorem c1_script_mesh_id_not_rounded :
    scriptGetMeshId (430621/10000) (1413544/10000) = "43.0621_141.3544_20km" ∧
    scriptGetMeshId (430623/10000) (1413545/10000) = "43.0623_141.3545_20km" ∧
    scriptGetMeshId (430621/10000) (1413544/10000) ≠
      scriptGetMeshId (430623/10000) (1413545/10000) ∧
    flatGetMeshId (430621/10000) (1413544/10000) =
      flatGetMeshId (430623/10000) (1413545/10000) := by
  refine ⟨by decide, by decide, by decide, by decide⟩

/-! ### Raw artifacts and the aggregator

`process_precipitation_data` of the class draft: opens the NetCDF file,
multiplies the `tp` variable by `1000 * 24 * 30`, selects the grid cell
nearest to the requested point when the extract is three-dimensional, and
sums the monthly series for the annual value.  A file lacking the `tp`
variable raises (`KeyError`), modelled by the `noTp` artifact shape.
-/

/-- The content of one downloaded NetCDF file. -/
inductive Artifact where
  | oneDim (tp : List ℚ)
  | threeDim (lats lons : List ℚ) (tp : List (List (List ℚ)))
  | noTp
  deriving DecidableEq

/-- Index of the first minimum of a list (numpy `argmin`: ties go to the
lower index), accumulator form. -/
def argminAux : List ℚ → ℕ → ℕ → ℚ → ℕ
  | [], _, best, _ => best
  | x :: xs, i, best, bv =>
      if x < bv then argminAux xs (i + 1) i x else argminAux xs (i + 1) best bv

/-- Index of the first minimum of a list. -/
def argminIdx : List ℚ → ℕ
  | [] => 0
  | x :: xs => argminAux xs 1 0 x

/-- The unit conversion constant `1000 * 24 * 30` (m to mm/month) applied to
the raw variable. -/
def CONV : ℚ := 1000 * 24 * 30

/-- Model of `ERA5RainRetriever.process_precipitation_data`: returns the 12-value
monthly series and the annual value `np.sum(monthly_precip)`. -/
def processPrecipitationData (a : Artifact) (lat lon : ℚ) :
    Except String (List ℚ × ℚ) :=
  match a with
  | .noTp => .error "KeyError: tp"
  | .oneDim tp =>
      let monthly := tp.map (fun v => v * CONV)
      .ok (monthly, monthly.sum)
  | .threeDim lats lons tp =>
      let latIdx := argminIdx (lats.map (fun x => |x - lat|))
      let lonIdx := argminIdx (lons.map (fun x => |x - lon|))
      let monthly := tp.map (fun slice => ((slice.getD latIdx []).getD lonIdx 0) * CONV)
      .ok (monthly, monthly.sum)

/-! ### Rows, files and run state of `ERA5RainRetriever` -/

/-- One input point (canonical columns `No`, `lat1`, `lon1`,
`location_name`). -/
structure Loc where
  no : ℤ
  lat1 : ℚ
  lon1 : ℚ
  name : String
  deriving DecidableEq

/-- The `Month` column: a month number or the literal `Annual`. -/
inductive MonthCol where
  | month (m : ℕ)
  | annual
  deriving DecidableEq

/-- One row of a point-scoped CSV file (`save_results` local `data`). -/
structure PtRow where
  no : ℤ
  lat : ℚ
  lon : ℚ
  locName : String
  month : MonthCol
  value : ℚ
  deriving DecidableEq

/-- One row of the run-wide buffer `all_results` and of the combined CSV
(these additionally carry the `Year` column). -/
structure CombRow where
  no : ℤ
  lat : ℚ
  lon : ℚ
  locName : String
  month : MonthCol
  year : ℤ
  value : ℚ
  deriving DecidableEq

/-- The `groupby` key of `save_all_results`:
`['No', 'Latitude', 'Longitude', 'Location', 'Year']`. -/
structure GKey where
  no : ℤ
  lat : ℚ
  lon : ℚ
  locName : String
  year : ℤ
  deriving DecidableEq

/-- Key of a monthly row for the combined-annual `groupby`. -/
def rowKey (r : CombRow) : GKey := ⟨r.no, r.lat, r.lon, r.locName, r.year⟩

/-- Association-list lookup on an explicit key type. -/
def lookupK {κ α : Type} [DecidableEq κ] : List (κ × α) → κ → Option α
  | [], _ => none
  | (k, v) :: rest, n => if k = n then some v else lookupK rest n

/-- Association-list write (overwrites an existing key, else appends). -/
def setK {κ α : Type} [DecidableEq κ] : List (κ × α) → κ → α → List (κ × α)
  | [], k, v => [(k, v)]
  | (k0, v0) :: rest, k, v =>
      if k0 = k then (k, v) :: rest else (k0, v0) :: setK rest k v

/-- Association-list deletion. -/
def removeK {κ α : Type} [DecidableEq κ] : List (κ × α) → κ → List (κ × α)
  | [], _ => []
  | (k0, v) :: rest, k =>
      if k0 = k then removeK rest k else (k0, v) :: removeK rest k

/-- The on-disk state of one run directory: NetCDF artifacts keyed by mesh
id (`netcdf/precip_{mesh_id}.nc`), point CSV files keyed by point id
(`csv/precip_location_{No}.csv`), and the combined results file
(`csv/precipitation_results_{year}.csv`). -/
structure FS where
  netcdf : List (String × Artifact)
  csv : List (ℤ × List PtRow)
  combined : Option (List CombRow)
  deriving DecidableEq

/-- The twelve monthly rows of a point CSV, month numbers counted from
`m0`. -/
def monthRowsPt (l : Loc) : ℕ → List ℚ → List PtRow
  | _, [] => []
  | m0, v :: vs => ⟨l.no, l.lat1, l.lon1, l.name, .month m0, v⟩ :: monthRowsPt l (m0 + 1) vs

/-- The thirteen rows written by `save_results` to the point CSV: twelve
monthly rows followed by the `Annual` row. -/
def ptRows (l : Loc) (monthly : List ℚ) (annualV : ℚ) : List PtRow :=
  monthRowsPt l 1 monthly ++ [⟨l.no, l.lat1, l.lon1, l.name, .annual, annualV⟩]

/-- The twelve monthly rows appended to `all_results` by `save_results`
(these carry the year; no annual row is buffered). -/
def monthRowsComb (year : ℤ) (l : Loc) : ℕ → List ℚ → List CombRow
  | _, [] => []
  | m0, v :: vs =>
      ⟨l.no, l.lat1, l.lon1, l.name, .month m0, year, v⟩ :: monthRowsComb year l (m0 + 1) vs

/-- What one fetch attempt does in the environment: the service either
materializes a complete artifact, fails leaving nothing, or fails leaving a
partially written file at the target path. -/
inductive FetchOutcome where
  | success (a : Artifact)
  | failNoFile
  | failKeepFile (a : Artifact)

/-- Decidable equality of `Except` values with decidable components. -/
instance {ε α : Type} [DecidableEq ε] [DecidableEq α] :
    DecidableEq (Except ε α) := fun a b =>
  match a, b with
  | .ok x, .ok y =>
      if h : x = y then .isTrue (by rw [h]) else .isFalse (by simp [h])
  | .error x, .error y =>
      if h : x = y then .isTrue (by rw [h]) else .isFalse (by simp [h])
  | .ok _, .error _ => .isFalse (by simp)
  | .error _, .ok _ => .isFalse (by simp)

/-- Result of `download_era5_data`: the filesystem afterwards, whether
`c.retrieve` was invoked, and the outcome. -/
structure DlResult where
  fs : FS
  invoked : Bool
  outcome : Except String Unit
  deriving DecidableEq

/-- Model of `ERA5RainRetriever.download_era5_data`: if the canonical file
`netcdf/precip_{mesh_id}.nc` already exists the download is skipped;
otherwise `c.retrieve` writes directly to the canonical path.  The source
has no exception handler here: a failing retrieve propagates, and whatever
the service wrote at the canonical path stays on disk. -/
def downloadEra5Data (oracle : String → FetchOutcome) (fs : FS) (meshId : String) :
    DlResult :=
  match lookupK fs.netcdf meshId with
  | some _ => ⟨fs, false, .ok ()⟩
  | none =>
      match oracle meshId with
      | .success a => ⟨{ fs with netcdf := setK fs.netcdf meshId a }, true, .ok ()⟩
      | .failNoFile => ⟨fs, true, .error "RequestError"⟩
      | .failKeepFile a =>
          ⟨{ fs with netcdf := setK fs.netcdf meshId a }, true, .error "RequestError"⟩

/-- One entry of the per-point error log
(`Error processing location {No}` and `Details: lat=…, lon=…`). -/
structure ErrEntry where
  no : ℤ
  lat : ℚ
  lon : ℚ
  msg : String
  deriving DecidableEq

/-- The in-memory state of a `process_locations` run: the filesystem, the
`processed_meshes` table (mesh id to NetCDF path), the `all_results`
buffer, plus instrumentation of the run's observable events: fetch
invocations, error-log entries, points saved, loop iterations completed,
and calls to `save_all_results`. -/
structure RunState where
  fs : FS
  processedMeshes : List (String × String)
  allResults : List CombRow
  fetchLog : List String
  errLog : List ErrEntry
  used : List (ℤ × String × Artifact)
  okPoints : List ℤ
  handled : ℕ
  flushCount : ℕ
  deriving DecidableEq

/-- The canonical NetCDF path of a mesh. -/
def ncPath (meshId : String) : String := "precip_" ++ meshId ++ ".nc"

/-- Fresh in-memory state over a filesystem (`__init__`). -/
def initState (fs : FS) : RunState := ⟨fs, [], [], [], [], [], [], 0, 0⟩

/-- Aggregation and persistence for one point once its NetCDF file is
resolved: `process_precipitation_data` then `save_results` (which writes
the point CSV and appends the twelve monthly rows to `all_results`).
Failures are recorded in the error log with the point's id, latitude and
longitude, as in the orchestrator's `except` block. -/
def runAggregate (year : ℤ) (st : RunState) (meshId : String) (l : Loc) : RunState :=
  match lookupK st.fs.netcdf meshId with
  | none => { st with errLog := st.errLog ++ [⟨l.no, l.lat1, l.lon1, "FileNotFoundError"⟩] }
  | some a =>
      match processPrecipitationData a l.lat1 l.lon1 with
      | .error e => { st with errLog := st.errLog ++ [⟨l.no, l.lat1, l.lon1, e⟩] }
      | .ok (monthly, annualV) =>
          { st with
            fs := { st.fs with csv := setK st.fs.csv l.no (ptRows l monthly annualV) },
            allResults := st.allResults ++ monthRowsComb year l 1 monthly,
            used := st.used ++ [(l.no, meshId, a)],
            okPoints := st.okPoints ++ [l.no] }

/-- The body of the `for location in df` loop of `process_locations`: mesh
reuse via `processed_meshes`, else `download_era5_data` (registering the
mesh only on success), then aggregation; any failure is caught at this
per-point boundary and logged; the `finally` block advances the progress
counter. -/
def processOneLocation (year : ℤ) (oracle : String → FetchOutcome)
    (st : RunState) (l : Loc) : RunState :=
  let meshId := scriptGetMeshId l.lat1 l.lon1
  let afterTry : RunState :=
    match lookupK st.processedMeshes meshId with
    | some _ => runAggregate year st meshId l
    | none =>
        let dl := downloadEra5Data oracle st.fs meshId
        let st1 := { st with
          fs := dl.fs,
          fetchLog := if dl.invoked then st.fetchLog ++ [meshId] else st.fetchLog }
        match dl.outcome with
        | .error e => { st1 with errLog := st1.errLog ++ [⟨l.no, l.lat1, l.lon1, e⟩] }
        | .ok _ =>
            let st2 := { st1 with
              processedMeshes := setK st1.processedMeshes meshId (ncPath meshId) }
            runAggregate year st2 meshId l
  { afterTry with handled := afterTry.handled + 1 }

/-- The whole point loop. -/
def runLoop (year : ℤ) (oracle : String → FetchOutcome)
    (st : RunState) (workSet : List Loc) : RunState :=
  workSet.foldl (processOneLocation year oracle) st

/-- Model of `ERA5RainRetriever.check_missing_locations`: a point is classified as
processed when `csv/precip_location_{No}.csv` exists (the file is never
opened); the merge on `(No, lat1, lon1)` then drops matched rows. -/
def checkMissingLocations (input : List Loc) (fs : FS) : List Loc :=
  let processed := input.filter (fun r => (lookupK fs.csv r.no).isSome)
  if processed.isEmpty then input
  else
    input.filter (fun r =>
      !(decide ((r.no, r.lat1, r.lon1) ∈ processed.map (fun p => (p.no, p.lat1, p.lon1)))))

/-- The `monthly_df` of `save_all_results`: the buffered rows whose `Month` is
not `Annual`. -/
def monthlyOf (rows : List CombRow) : List CombRow :=
  rows.filter (fun r => !(decide (r.month = .annual)))

/-- The `annual_df` of `save_all_results`: one derived annual row per `groupby`
key, its value the sum of the group's monthly values. -/
def annualRowsOf (rows : List CombRow) : List CombRow :=
  (((monthlyOf rows).map rowKey).dedup).map (fun k =>
    (⟨k.no, k.lat, k.lon, k.locName, .annual, k.year,
      (((monthlyOf rows).filter (fun r => rowKey r = k)).map (fun r => r.value)).sum⟩ :
      CombRow))

/-- Model of `ERA5RainRetriever.save_all_results`: if `all_results` is nonempty,
write the combined CSV as the concatenation of the buffered monthly rows
and the derived annual rows. -/
def saveAllResults (allResults : List CombRow) (fs : FS) : FS :=
  if allResults.isEmpty then fs
  else { fs with combined := some (monthlyOf allResults ++ annualRowsOf allResults) }

/-- The work-set a run targets: the full input for a default run, the
missing set for a resume run (`process_locations` before the loop). -/
def workSetOf (input : List Loc) (fs : FS) (resume : Bool) : List Loc :=
  if resume then checkMissingLocations input fs else input

/-- Model of `ERA5RainRetriever.process_locations` over canonical-column input: when
the work-set is empty the function logs and returns before the loop and
before `save_all_results`; otherwise it runs the loop and then calls
`save_all_results` once. -/
def processLocations (year : ℤ) (oracle : String → FetchOutcome)
    (fs0 : FS) (input : List Loc) (resume : Bool) : RunState :=
  let df := workSetOf input fs0 resume
  if df.isEmpty then initState fs0
  else
    let stEnd := runLoop year oracle (initState fs0) df
    { stEnd with
      fs := saveAllResults stEnd.allResults stEnd.fs,
      flushCount := stEnd.flushCount + 1 }

/-- A run killed after `k` completed loop iterations: the fold over the
first `k` points of the work-set; `save_all_results` is never reached. -/
def interruptedRun (year : ℤ) (oracle : String → FetchOutcome)
    (fs0 : FS) (input : List Loc) (resume : Bool) (k : ℕ) : RunState :=
  runLoop year oracle (initState fs0) ((workSetOf input fs0 resume).take k)

/-- The rows of the combined results file, empty when the file is absent. -/
def combinedRows (st : RunState) : List CombRow := st.fs.combined.getD []

/-! ### The flat draft's safe fetch and the crash model of the point write -/

/-- The flat draft's temp directory (`temp/temp_{location_id}.nc` keyed by
location id). -/
structure FlatFS where
  temp : List (ℤ × Artifact)
  deriving DecidableEq

/-- Model of `safe_retrieve_data` of the flat draft: retrieve into the temp file,
open it and require the `tp` variable; on any failure the temp file, if
present, is removed and the error propagates. -/
def safeRetrieveData (outcome : FetchOutcome) (fs : FlatFS) (locId : ℤ) :
    FlatFS × Except String Artifact :=
  match outcome with
  | .success a =>
      let fs1 : FlatFS := ⟨setK fs.temp locId a⟩
      if a = .noTp then (⟨removeK fs1.temp locId⟩, .error "ValueError: tp")
      else (fs1, .ok a)
  | .failKeepFile a => (⟨removeK (setK fs.temp locId a) locId⟩, .error "RequestError")
  | .failNoFile => (fs, .error "RequestError")

/-- Crash model: `save_results` writes the point CSV with a single `df.to_csv` call on
the final path: opening the file creates (or truncates) it before any row
is written, and the rows land at flush.  The write is therefore externally
visible in two steps, and `k` counts the steps completed before the process
is killed: `k = 0` nothing happened, `k = 1` the file exists empty, `k ≥ 2`
the file holds all rows. -/
def saveResultsKilled (fs : FS) (no : ℤ) (rows : List PtRow) (k : ℕ) : FS :=
  if k = 0 then fs
  else if k = 1 then { fs with csv := setK fs.csv no [] }
  else { fs with csv := setK fs.csv no rows }

/-! ### The header-normalization front end (class draft)

`process_locations` calls `check_missing_locations` first — which reads
`row['No']` of every input row — and only afterwards normalizes header
synonyms to the canonical `No`/`lat1`/`lon1` columns.  The csv directory
always exists by then (`setup_directories` ran in `__init__`), so the row
loop is always reached.
-/

/-- An input CSV: header names and numeric rows. -/
structure Table where
  cols : List String
  rows : List (List ℚ)
  deriving DecidableEq

/-- Access `row[c]` on a pandas row: `KeyError` when the column is absent. -/
def getCell (cols : List String) (row : List ℚ) (c : String) : Except String ℚ :=
  match cols.findIdx? (fun x => x == c) with
  | none => .error ("KeyError: " ++ c)
  | some i => .ok (row.getD i 0)

/-- Access `row[c]` when the column is known to exist (after normalization). -/
def getCellD (cols : List String) (row : List ℚ) (c : String) : ℚ :=
  match cols.findIdx? (fun x => x == c) with
  | none => 0
  | some i => row.getD i 0

/-- The row loop of `check_missing_locations`: for every input row, the id
is read from `row['No']` to form the existence-checked file name; rows
whose file exists contribute a processed entry (reading `lat1`/`lon1`
too). -/
def processedRowsH (cols : List String) (fs : FS) :
    List (List ℚ) → Except String (List (ℚ × ℚ × ℚ))
  | [] => .ok []
  | row :: rest => do
      let no ← getCell cols row "No"
      if (lookupK fs.csv no.num).isSome then do
        let la ← getCell cols row "lat1"
        let lo ← getCell cols row "lon1"
        let ps ← processedRowsH cols fs rest
        .ok ((no, la, lo) :: ps)
      else
        processedRowsH cols fs rest

/-- Model of `check_missing_locations` at the raw-header level. -/
def checkMissingH (tbl : Table) (fs : FS) : Except String Table := do
  let ps ← processedRowsH tbl.cols fs tbl.rows
  if ps.isEmpty then .ok tbl
  else
    .ok { tbl with rows := tbl.rows.filter (fun row =>
      match getCell tbl.cols row "No", getCell tbl.cols row "lat1",
            getCell tbl.cols row "lon1" with
      | .ok a, .ok b, .ok c => !(decide ((a, b, c) ∈ ps))
      | _, _, _ => true) }

/-- Rename one header. -/
def renameCol (cols : List String) (src dst : String) : List String :=
  cols.map (fun c => if c = src then dst else c)

/-- First synonym of a required column present in the header
(`header_mapping` loop of `process_locations`). -/
def findSyn (cols : List String) (poss : List String) : Option String :=
  poss.find? (fun c => cols.contains c)

/-- Header normalization of `process_locations`: each required column must
match one of its synonyms, else `ValueError`; matched headers are renamed
to the canonical names. -/
def normalizeHeaders (tbl : Table) : Except String Table :=
  match findSyn tbl.cols ["No", "no", "ID", "id", "index"] with
  | none => .error "ValueError: No"
  | some cNo =>
      match findSyn tbl.cols ["lat1", "lat", "latitude", "Latitude", "LAT"] with
      | none => .error "ValueError: lat1"
      | some cLat =>
          match findSyn tbl.cols ["lon1", "lon", "longitude", "Longitude", "LON"] with
          | none => .error "ValueError: lon1"
          | some cLon =>
              let newCols :=
                renameCol (renameCol (renameCol tbl.cols cNo "No") cLat "lat1") cLon "lon1"
              .ok { tbl with cols := newCols }

/-- Canonical-column rows as points (ids in the inputs are integers). -/
def toLocs (tbl : Table) : List Loc :=
  tbl.rows.map (fun row =>
    ⟨(getCellD tbl.cols row "No").num, getCellD tbl.cols row "lat1",
      getCellD tbl.cols row "lon1", ""⟩)

/-- The front end of a default run in source order: missing-set check (with
its raw `row['No']` accesses), the empty-work-set early return, then header
normalization; yields the canonical work-set handed to the loop. -/
def frontEnd (tbl : Table) (fs : FS) (resume : Bool) : Except String (List Loc) := do
  let missing ← checkMissingH tbl fs
  let df := if resume then missing else tbl
  if df.rows.isEmpty then .ok []
  else do
    let ndf ← normalizeHeaders df
    .ok (toLocs ndf)

/-! ### Concrete fixtures -/

/-- An empty run directory. -/
def fs0 : FS := ⟨[], [], none⟩

/-- The first concrete point of the spec scenario. -/
def locA : Loc := ⟨0, 430621/10000, 1413544/10000, "A"⟩

/-- A second point sharing `locA`'s coordinates (same cell). -/
def locA1 : Loc := ⟨1, 430621/10000, 1413544/10000, "B"⟩

/-- A point in a different cell. -/
def locB : Loc := ⟨1, 356895/10000, 1396917/10000, "B"⟩

/-- A complete artifact: twelve months of 0.001 m of precipitation. -/
def artFlat : Artifact := .oneDim (List.replicate 12 (1/1000))

/-- A service that always returns `artFlat`. -/
def oracleOk : String → FetchOutcome := fun _ => .success artFlat

/-- The cell id of `locA` under the class draft. -/
def meshA : String := scriptGetMeshId (430621/10000) (1413544/10000)

/-- The monthly series produced from `artFlat`: 720 mm every month. -/
def monthly720 : List ℚ := List.replicate 12 720

/-- C2 counterexample: with two points of the same cell and a service whose
fetches fail (leaving no file), the run fires a second Fetcher invocation
for the same cell: the failed first attempt neither registers the mesh nor
leaves a file, so the claim's at-most-one bound is violated. -/
theorem c2_counterexample :
    (processLocations 2010 (fun _ => .failNoFile) fs0 [locA, locA1] false).fetchLog.count
      meshA = 2 ∧
    ¬ ((processLocations 2010 (fun _ => .failNoFile) fs0 [locA, locA1] false).fetchLog.count
      meshA ≤ 1) := by
  refine ⟨by decide, by decide⟩

/-- C3: a full uninterrupted run over `[locA, locB]` puts `locA`'s monthly
rows into the combined output, but an interrupted run (killed after
`locA`) followed by a resume run rebuilds the combined file from the resume
run's in-memory `all_results` only, so `locA`'s rows are missing from it
while `locB`'s are present: the two combined outputs do not have equal row
sets. -/
theorem c3_resume_loses_combined_rows :
    (⟨0, 430621/10000, 1413544/10000, "A", .month 1, 2010, 720⟩ : CombRow) ∈
      combinedRows (processLocations 2010 oracleOk fs0 [locA, locB] false) ∧
    (⟨0, 430621/10000, 1413544/10000, "A", .month 1, 2010, 720⟩ : CombRow) ∉
      combinedRows (processLocations 2010 oracleOk
        (interruptedRun 2010 oracleOk fs0 [locA, locB] false 1).fs [locA, locB] true) ∧
    (⟨1, 356895/10000, 1396917/10000, "B", .month 1, 2010, 720⟩ : CombRow) ∈
      combinedRows (processLocations 2010 oracleOk
        (interruptedRun 2010 oracleOk fs0 [locA, locB] false 1).fs [locA, locB] true) := by
  refine ⟨by decide, by decide, by decide⟩

/-- A directory in which `locA` already has a point CSV. -/
def fsDoneA : FS := ⟨[], [(0, ptRows locA monthly720 8640)], none⟩

/-- C4 counterexample: a resume run whose work-set is empty (every point
already has a file) returns at the `len(df) == 0` early exit before
`save_all_results`, so the flush is not called at all, contradicting
`exactly once, unconditionally`. -/
theorem c4_counterexample :
    (processLocations 2010 oracleOk fsDoneA [locA] true).flushCount = 0 ∧
    ¬ ((processLocations 2010 oracleOk fsDoneA [locA] true).flushCount = 1) := by
  refine ⟨by decide, by decide⟩

/-- A service whose fetch fails after writing a partial file lacking the
`tp` variable at the target path. -/
def oracleBadFile : String → FetchOutcome := fun _ => .failKeepFile .noTp

/-- C5: in the class draft a failed retrieve leaves the partially written
file at the canonical path (`download_era5_data` has no cleanup), the error
propagates, and the next call for the same cell finds the file and returns
it as cached without fetching or validating; the flat draft's
`safe_retrieve_data` deletes the partial temp file before propagating the
error. -/
theorem c5_partial_file_poisons_cache :
    (downloadEra5Data oracleBadFile fs0 meshA).invoked = true ∧
    (downloadEra5Data oracleBadFile fs0 meshA).outcome = .error "RequestError" ∧
    lookupK (downloadEra5Data oracleBadFile fs0 meshA).fs.netcdf meshA = some .noTp ∧
    downloadEra5Data oracleBadFile (downloadEra5Data oracleBadFile fs0 meshA).fs meshA =
      ⟨(downloadEra5Data oracleBadFile fs0 meshA).fs, false, .ok ()⟩ ∧
    safeRetrieveData (.failKeepFile .noTp) ⟨[]⟩ 0 = (⟨[]⟩, .error "RequestError") := by
  refine ⟨by decide, by decide, by decide, by decide, by decide⟩

/-- C6: `save_results` has no temporary file or rename: a process killed
after the point file was created but before its rows were flushed leaves an
empty `precip_location_0.csv` whose contents differ from the full record
set, and `check_missing_locations` counts the point as processed, so the
partial file is visible as a completed result. -/
theorem c6_crash_mid_write_visible :
    lookupK (saveResultsKilled fs0 0 (ptRows locA monthly720 8640) 1).csv 0 = some [] ∧
    ([] : List PtRow) ≠ ptRows locA monthly720 8640 ∧
    checkMissingLocations [locA] (saveResultsKilled fs0 0 (ptRows locA monthly720 8640) 1)
      = [] := by
  refine ⟨by decide, by decide, by decide⟩

/-- The annual value of `process_precipitation_data` is `np.sum` of the
monthly series it returns. -/
theorem processPrecip_ok_sum (a : Artifact) (lat lon : ℚ) (m : List ℚ) (s : ℚ)
    (h : processPrecipitationData a lat lon = .ok (m, s)) : s = m.sum := by
  cases a with
  | noTp => simp [processPrecipitationData] at h
  | oneDim tp =>
      simp only [processPrecipitationData, Except.ok.injEq, Prod.mk.injEq] at h
      rw [← h.1, ← h.2]
  | threeDim lats lons tp =>
      simp only [processPrecipitationData, Except.ok.injEq, Prod.mk.injEq] at h
      rw [← h.1, ← h.2]

/-! ### The flat draft's aggregation and persisted annual

The flat draft's main loop computes `daily_precip = ds['tp'] * 1000`,
`monthly_precip = daily_precip.groupby('valid_time.month').sum(dim=
'valid_time')` and `annual_precip = daily_precip.sum(dim='valid_time')`;
`save_intermediate_files` then persists, per month,
`float(monthly_precip.sel(month=m).values.mean()) * 1000`, and as the
annual row `float(annual_precip.values.mean()) * 1000` — the annual is
recomputed from the raw artifact's time sum, not derived from the monthly
series.  The request always fetches the twelve monthly means, so each
`groupby` month group is the single matching time slice.
-/

/-- Sum of all entries of a two-dimensional array. -/
def grid2Sum (g : List (List ℚ)) : ℚ := (g.map (fun row => row.sum)).sum

/-- Number of entries of a two-dimensional array. -/
def grid2Count (g : List (List ℚ)) : ℕ := (g.map (fun row => row.length)).sum

/-- numpy `.mean()` of a two-dimensional array: total sum over element
count. -/
def grid2Mean (g : List (List ℚ)) : ℚ := grid2Sum g / (grid2Count g : ℚ)

/-- The flat draft's `daily_precip = ds['tp'] * 1000`, one slice per time
step. -/
def flatDailyPrecip (tp : List (List (List ℚ))) : List (List (List ℚ)) :=
  tp.map (fun sl => sl.map (fun row => row.map (fun v => v * 1000)))

/-- The monthly values persisted by `save_intermediate_files`:
`float(monthly_precip.sel(month=m).values.mean()) * 1000`, where the month
group of the twelve-monthly-means file is its single time slice. -/
def flatMonthlyValues (tp : List (List (List ℚ))) : List ℚ :=
  (flatDailyPrecip tp).map (fun sl => grid2Mean sl * 1000)

/-- Elementwise sum of two slices. -/
def gridAdd (g1 g2 : List (List ℚ)) : List (List ℚ) :=
  List.zipWith (fun r1 r2 => List.zipWith (fun a b => a + b) r1 r2) g1 g2

/-- The flat draft's `annual_precip = daily_precip.sum(dim='valid_time')`:
the elementwise sum of the daily slices over time. -/
def flatAnnualPrecip (tp : List (List (List ℚ))) : List (List ℚ) :=
  match flatDailyPrecip tp with
  | [] => []
  | g :: gs => gs.foldl gridAdd g

/-- The annual value persisted by `save_intermediate_files`:
`float(annual_precip.values.mean()) * 1000` — a function of the raw
artifact's time sum. -/
def flatAnnualValue (tp : List (List (List ℚ))) : ℚ :=
  grid2Mean (flatAnnualPrecip tp) * 1000

/-- A concrete twelve-step 2-by-2 raw extract: slice `m` holds
`[[m, 2m], [3m, 4m]] / 1000` metres for `m = 1..12`. -/
def tp0 : List (List (List ℚ)) :=
  (List.range 12).map (fun i =>
    [[((i : ℚ) + 1) / 1000, 2 * ((i : ℚ) + 1) / 1000],
     [3 * ((i : ℚ) + 1) / 1000, 4 * ((i : ℚ) + 1) / 1000]])

/-- C7: the flat draft's persisted annual value is computed from the raw
artifact (`annual_precip = daily_precip.sum(dim='valid_time')`, then its
grid mean times 1000), not derived from the persisted monthly series,
contradicting the claim's provenance conjunct and the code's own comment;
evaluated at the concrete extract `tp0` it yields 195000, which — by
linearity of mean and sum — still equals the sum of the persisted monthly
values exactly, so the tolerance conjunct holds by coincidence rather than
by construction.  The class draft's `process_precipitation_data` does
derive its annual from the series (`np.sum(monthly_precip)`). -/
theorem c7_flat_annual_from_artifact :
    flatAnnualValue tp0 = 195000 ∧
    flatAnnualValue tp0 = (flatMonthlyValues tp0).sum ∧
    |flatAnnualValue tp0 - (flatMonthlyValues tp0).sum| ≤ 1 / 1000000 ∧
    processPrecipitationData artFlat 0 0 = .ok (monthly720, monthly720.sum) := by
  refine ⟨by decide, by decide, by decide, by decide⟩

/-- C8 counterexample: when the same point appears twice in the work-set,
`all_results` buffers its twelve monthly rows twice and the combined flush
derives an annual of 17280, while the point CSV persists 8640: the derived
annual row does not equal the persisted one. -/
theorem c8_counterexample :
    (⟨0, 430621/10000, 1413544/10000, "A", .annual, 2010, 17280⟩ : CombRow) ∈
      combinedRows (processLocations 2010 oracleOk fs0 [locA, locA] false) ∧
    (⟨0, 430621/10000, 1413544/10000, "A", .annual, 2010, 8640⟩ : CombRow) ∉
      combinedRows (processLocations 2010 oracleOk fs0 [locA, locA] false) ∧
    lookupK (processLocations 2010 oracleOk fs0 [locA, locA] false).fs.csv 0 =
      some (ptRows locA monthly720 8640) ∧
    (17280 : ℚ) ≠ 8640 := by
  refine ⟨by decide, by decide, by decide, by decide⟩

/-- C9: the program's own usage text offers `id,latitude,longitude` as a
valid header, and `process_locations` contains the synonym table mapping it
to the canonical schema — but `check_missing_locations` runs first and
reads `row['No']` on the raw header, so the `id`-headed input aborts with a
`KeyError` before normalization while the `No,lat1,lon1` input is
processed: the two header variants do not behave identically. -/
theorem c9_header_variants_diverge :
    frontEnd ⟨["id", "latitude", "longitude"], [[7, 430621/10000, 1413544/10000]]⟩ fs0 false
      = .error "KeyError: No" ∧
    frontEnd ⟨["No", "lat1", "lon1"], [[7, 430621/10000, 1413544/10000]]⟩ fs0 false
      = .ok [⟨7, 430621/10000, 1413544/10000, ""⟩] := by
  refine ⟨by decide, by decide⟩

/-! ### Association-list lemmas -/

theorem lookupK_setK_self {κ α : Type} [DecidableEq κ] (l : List (κ × α)) (k : κ) (v : α) :
    lookupK (setK l k v) k = some v := by
  induction l with
  | nil => simp [setK, lookupK]
  | cons hd t ih =>
      obtain ⟨k0, v0⟩ := hd
      by_cases hk : k0 = k
      · simp [setK, hk, lookupK]
      · simp [setK, hk, lookupK, ih]

theorem lookupK_setK_ne {κ α : Type} [DecidableEq κ] (l : List (κ × α)) (k k' : κ) (v : α)
    (h : k ≠ k') : lookupK (setK l k v) k' = lookupK l k' := by
  induction l with
  | nil => simp [setK, lookupK, h]
  | cons hd t ih =>
      obtain ⟨k0, v0⟩ := hd
      by_cases hk : k0 = k
      · subst hk
        simp [setK, lookupK, h]
      · by_cases hk' : k0 = k'
        · subst hk'
          simp [setK, hk, lookupK]
        · simp [setK, hk, lookupK, hk', ih]

/-- Presence under `lookupK` depends only on the stored keys. -/
theorem lookupK_isSome_keys {α β : Type} (l1 : List (ℤ × α)) (l2 : List (ℤ × β))
    (h : l1.map Prod.fst = l2.map Prod.fst) (n : ℤ) :
    (lookupK l1 n).isSome = (lookupK l2 n).isSome := by
  induction l1 generalizing l2 with
  | nil =>
      cases l2 with
      | nil => rfl
      | cons h2 t2 => simp at h
  | cons h1 t1 ih =>
      cases l2 with
      | nil => simp at h
      | cons h2 t2 =>
          obtain ⟨k1, v1⟩ := h1
          obtain ⟨k2, v2⟩ := h2
          simp only [List.map_cons, List.cons.injEq] at h
          obtain ⟨hk, ht⟩ := h
          subst hk
          by_cases hn : k1 = n
          · simp [lookupK, hn]
          · simp [lookupK, hn, ih t2 ht]

/-- The function `check_missing_locations` only inspects which point files exist. -/
theorem checkMissing_keys (input : List Loc) (fs1 fs2 : FS)
    (h : fs1.csv.map Prod.fst = fs2.csv.map Prod.fst) :
    checkMissingLocations input fs1 = checkMissingLocations input fs2 := by
  unfold checkMissingLocations
  have hp : (fun r : Loc => (lookupK fs1.csv r.no).isSome) =
      (fun r : Loc => (lookupK fs2.csv r.no).isSome) := by
    funext r
    exact lookupK_isSome_keys fs1.csv fs2.csv h r.no
  rw [hp]

/-- Membership in the missing set is equivalent to the absence of the
point's file. -/
theorem checkMissing_mem_iff (input : List Loc) (fs : FS) (r : Loc) :
    r ∈ checkMissingLocations input fs ↔
      r ∈ input ∧ (lookupK fs.csv r.no).isSome = false := by
  unfold checkMissingLocations
  by_cases hemp : (input.filter (fun r => (lookupK fs.csv r.no).isSome)).isEmpty
  · simp only [hemp, if_true]
    have hnil : input.filter (fun r => (lookupK fs.csv r.no).isSome) = [] := by
      simpa [List.isEmpty_iff] using hemp
    constructor
    · intro hr
      refine ⟨hr, ?_⟩
      cases hS : (lookupK fs.csv r.no).isSome with
      | false => rfl
      | true =>
          exfalso
          have hrP : r ∈ input.filter (fun r => (lookupK fs.csv r.no).isSome) :=
            List.mem_filter.mpr ⟨hr, hS⟩
          rw [hnil] at hrP
          exact absurd hrP (List.not_mem_nil r)
    · exact fun hh => hh.1
  · simp only [hemp, if_false]
    constructor
    · intro hr
      have hf := List.mem_filter.mp hr
      refine ⟨hf.1, ?_⟩
      have hmem : (r.no, r.lat1, r.lon1) ∉
          (input.filter (fun r => (lookupK fs.csv r.no).isSome)).map
            (fun p => (p.no, p.lat1, p.lon1)) := by
        simpa using hf.2
      cases hS : (lookupK fs.csv r.no).isSome with
      | false => rfl
      | true =>
          exfalso
          exact hmem (List.mem_map.mpr ⟨r, List.mem_filter.mpr ⟨hf.1, hS⟩, rfl⟩)
    · rintro ⟨hin, hNone⟩
      refine List.mem_filter.mpr ⟨hin, ?_⟩
      simp only [Bool.not_eq_true', decide_eq_false_iff_not]
      intro hmem
      obtain ⟨p, hp, heq⟩ := List.mem_map.mp hmem
      have hpSome : (lookupK fs.csv p.no).isSome = true := (List.mem_filter.mp hp).2
      have hpn : p.no = r.no := congrArg (fun t => t.1) heq
      rw [hpn] at hpSome
      rw [hpSome] at hNone
      exact Bool.noConfusion hNone

/-- C10: `check_missing_locations` classifies a point as processed exactly
when `csv/precip_location_{No}.csv` exists; the files' contents play no
role, so two directories with the same file names (one holding an empty
file) yield the same work-set. -/
theorem c10_missing_iff_file_absent (input : List Loc) (fs1 fs2 : FS) (r : Loc)
    (hkeys : fs1.csv.map Prod.fst = fs2.csv.map Prod.fst) :
    (r ∈ checkMissingLocations input fs1 ↔
      r ∈ input ∧ (lookupK fs1.csv r.no).isSome = false) ∧
    checkMissingLocations input fs1 = checkMissingLocations input fs2 :=
  ⟨checkMissing_mem_iff input fs1 r, checkMissing_keys input fs1 fs2 hkeys⟩

/-- A directory where `locA`'s point file exists but is empty (as after an
interrupted write). -/
def fsEmptyFileA : FS := ⟨[], [(0, [])], none⟩

/-- C10 witness: an empty point file and a complete one are classified
identically — the point is excluded from the resume work-set either way. -/
theorem c10_witness :
    ((locA ∈ checkMissingLocations [locA] fsEmptyFileA ↔
      locA ∈ [locA] ∧ (lookupK fsEmptyFileA.csv locA.no).isSome = false) ∧
    checkMissingLocations [locA] fsEmptyFileA = checkMissingLocations [locA] fsDoneA) :=
  c10_missing_iff_file_absent [locA] fsEmptyFileA fsDoneA locA (by decide)

/-! ### Characterizations of one loop iteration -/

/-- The aggregation step either only appends one error-log entry carrying the
point's id and coordinates, or performs the success update: point CSV
written, monthly rows buffered, the used artifact being the one the store
holds for the mesh. -/
theorem runAggregate_cases (year : ℤ) (st : RunState) (meshId : String) (l : Loc) :
    (∃ e : ErrEntry, e.no = l.no ∧ e.lat = l.lat1 ∧ e.lon = l.lon1 ∧
      runAggregate year st meshId l = { st with errLog := st.errLog ++ [e] }) ∨
    (∃ a monthly s, lookupK st.fs.netcdf meshId = some a ∧
      processPrecipitationData a l.lat1 l.lon1 = .ok (monthly, s) ∧
      runAggregate year st meshId l = { st with
        fs := { st.fs with csv := setK st.fs.csv l.no (ptRows l monthly s) },
        allResults := st.allResults ++ monthRowsComb year l 1 monthly,
        used := st.used ++ [(l.no, meshId, a)],
        okPoints := st.okPoints ++ [l.no] }) := by
  cases hnc : lookupK st.fs.netcdf meshId with
  | none =>
      refine Or.inl ⟨⟨l.no, l.lat1, l.lon1, "FileNotFoundError"⟩, rfl, rfl, rfl, ?_⟩
      simp only [runAggregate, hnc]
  | some a =>
      cases hpr : processPrecipitationData a l.lat1 l.lon1 with
      | error e =>
          refine Or.inl ⟨⟨l.no, l.lat1, l.lon1, e⟩, rfl, rfl, rfl, ?_⟩
          simp only [runAggregate, hnc, hpr]
      | ok p =>
          obtain ⟨monthly, annualV⟩ := p
          refine Or.inr ⟨a, monthly, annualV, rfl, hpr, ?_⟩
          simp only [runAggregate, hnc, hpr]

/-- The five ways one iteration of the point loop can go: mesh reuse,
cached file, successful download, failed download leaving no file, failed
download leaving a partial file.  In each case the resulting state is given
explicitly (the `finally` block bumps the progress counter). -/
theorem processOne_cases (year : ℤ) (oracle : String → FetchOutcome)
    (st : RunState) (l : Loc) :
    ∃ st' : RunState,
      processOneLocation year oracle st l = { st' with handled := st'.handled + 1 } ∧
      (let mid := scriptGetMeshId l.lat1 l.lon1
      ((lookupK st.processedMeshes mid).isSome = true ∧
        st' = runAggregate year st mid l) ∨
      (lookupK st.processedMeshes mid = none ∧
        (∃ a, lookupK st.fs.netcdf mid = some a) ∧
        st' = runAggregate year
          { st with processedMeshes := setK st.processedMeshes mid (ncPath mid) } mid l) ∨
      (lookupK st.processedMeshes mid = none ∧ lookupK st.fs.netcdf mid = none ∧
        (∃ a, oracle mid = .success a ∧
        st' = runAggregate year
          { st with fs := { st.fs with netcdf := setK st.fs.netcdf mid a },
                    fetchLog := st.fetchLog ++ [mid],
                    processedMeshes := setK st.processedMeshes mid (ncPath mid) } mid l)) ∨
      (lookupK st.processedMeshes mid = none ∧ lookupK st.fs.netcdf mid = none ∧
        oracle mid = .failNoFile ∧
        st' = { st with fetchLog := st.fetchLog ++ [mid],
                        errLog := st.errLog ++ [⟨l.no, l.lat1, l.lon1, "RequestError"⟩] }) ∨
      (lookupK st.processedMeshes mid = none ∧ lookupK st.fs.netcdf mid = none ∧
        (∃ a, oracle mid = .failKeepFile a ∧
        st' = { st with fs := { st.fs with netcdf := setK st.fs.netcdf mid a },
                        fetchLog := st.fetchLog ++ [mid],
                        errLog := st.errLog ++ [⟨l.no, l.lat1, l.lon1, "RequestError"⟩] }))) := by
  cases hpm : lookupK st.processedMeshes (scriptGetMeshId l.lat1 l.lon1) with
  | some p =>
      refine ⟨runAggregate year st (scriptGetMeshId l.lat1 l.lon1) l, ?_,
        Or.inl ⟨by rw [hpm]; rfl, rfl⟩⟩
      simp only [processOneLocation, hpm]
  | none =>
      cases hnc : lookupK st.fs.netcdf (scriptGetMeshId l.lat1 l.lon1) with
      | some a =>
          refine ⟨_, ?_, Or.inr (Or.inl ⟨hpm, ⟨a, hnc⟩, rfl⟩)⟩
          simp only [processOneLocation, downloadEra5Data, hpm, hnc]
          rfl
      | none =>
          cases hora : oracle (scriptGetMeshId l.lat1 l.lon1) with
          | success a =>
              refine ⟨_, ?_, Or.inr (Or.inr (Or.inl ⟨hpm, hnc, a, hora, rfl⟩))⟩
              simp only [processOneLocation, downloadEra5Data, hpm, hnc, hora]
              rfl
          | failNoFile =>
              refine ⟨_, ?_, Or.inr (Or.inr (Or.inr (Or.inl ⟨hpm, hnc, hora, rfl⟩)))⟩
              simp only [processOneLocation, downloadEra5Data, hpm, hnc, hora]
              rfl
          | failKeepFile a =>
              refine ⟨_, ?_, Or.inr (Or.inr (Or.inr (Or.inr ⟨hpm, hnc, a, hora, rfl⟩)))⟩
              simp only [processOneLocation, downloadEra5Data, hpm, hnc, hora]
              rfl

/-! ### C2: fetch deduplication when every fetch succeeds -/

/-- The invariant behind the per-cell fetch bound: no cell was fetched
twice, every fetched cell has its file on disk, and every artifact a point
used is the one the store holds for its mesh. -/
def DedupInv (st : RunState) : Prop :=
  (∀ mid, st.fetchLog.count mid ≤ 1) ∧
  (∀ mid, mid ∈ st.fetchLog → (lookupK st.fs.netcdf mid).isSome = true) ∧
  (∀ e ∈ st.used, lookupK st.fs.netcdf e.2.1 = some e.2.2)

theorem DedupInv_runAggregate (year : ℤ) (st : RunState) (mid : String) (l : Loc)
    (h : DedupInv st) : DedupInv (runAggregate year st mid l) := by
  rcases runAggregate_cases year st mid l with ⟨e, _, _, _, heq⟩ |
    ⟨a, monthly, s, hnc, _, heq⟩
  · rw [heq]; exact ⟨h.1, h.2.1, h.2.2⟩
  · rw [heq]
    refine ⟨h.1, h.2.1, ?_⟩
    intro e he
    rcases List.mem_append.mp he with h1 | h2
    · exact h.2.2 e h1
    · have he2 : e = (l.no, mid, a) := by simpa using h2
      rw [he2]
      exact hnc

theorem DedupInv_step (year : ℤ) (oracle : String → FetchOutcome)
    (hsucc : ∀ mid, ∃ a, oracle mid = .success a) (st : RunState) (l : Loc)
    (h : DedupInv st) : DedupInv (processOneLocation year oracle st l) := by
  obtain ⟨st', heq, hcases⟩ := processOne_cases year oracle st l
  rw [heq]
  have hgoal : DedupInv st' → DedupInv { st' with handled := st'.handled + 1 } :=
    fun hh => hh
  apply hgoal
  rcases hcases with ⟨hpm, rfl⟩ | ⟨hpm, ⟨a, hnc⟩, rfl⟩ | ⟨hpm, hnc, a, hora, rfl⟩ |
    ⟨hpm, hnc, hora, rfl⟩ | ⟨hpm, hnc, a, hora, rfl⟩
  · exact DedupInv_runAggregate year st _ l h
  · exact DedupInv_runAggregate year _ _ l ⟨h.1, h.2.1, h.2.2⟩
  · apply DedupInv_runAggregate
    set mid := scriptGetMeshId l.lat1 l.lon1 with hmid
    have hnotin : mid ∉ st.fetchLog := by
      intro hin
      have := h.2.1 mid hin
      rw [hnc] at this
      exact Bool.noConfusion this
    refine ⟨?_, ?_, ?_⟩
    · intro m
      show (st.fetchLog ++ [mid]).count m ≤ 1
      rw [List.count_append]
      by_cases hm : m = mid
      · have h0 : st.fetchLog.count m = 0 := by
          rw [hm]
          exact List.count_eq_zero.mpr hnotin
        rw [h0, hm]
        simp
      · have h1 : [mid].count m = 0 := by simp [hm]
        rw [h1]
        simpa using h.1 m
    · intro m hm
      show (lookupK (setK st.fs.netcdf mid a) m).isSome = true
      rcases List.mem_append.mp hm with h1 | h2
      · by_cases hmm : m = mid
        · subst hmm
          rw [lookupK_setK_self]
          rfl
        · rw [lookupK_setK_ne _ _ _ _ (fun hh => hmm hh.symm)]
          exact h.2.1 m h1
      · have hmm : m = mid := by simpa using h2
        subst hmm
        rw [lookupK_setK_self]
        rfl
    · intro e he
      show lookupK (setK st.fs.netcdf mid a) e.2.1 = some e.2.2
      have hold := h.2.2 e he
      have hne : mid ≠ e.2.1 := by
        intro hh
        rw [← hh, hnc] at hold
        exact Option.noConfusion hold
      rw [lookupK_setK_ne _ _ _ _ hne]
      exact hold
  · obtain ⟨a2, ha2⟩ := hsucc (scriptGetMeshId l.lat1 l.lon1)
    rw [hora] at ha2
    exact FetchOutcome.noConfusion ha2
  · obtain ⟨a2, ha2⟩ := hsucc (scriptGetMeshId l.lat1 l.lon1)
    rw [hora] at ha2
    exact FetchOutcome.noConfusion ha2

/-- Writing the combined file leaves the NetCDF store untouched. -/
theorem saveAllResults_netcdf (rows : List CombRow) (fs : FS) :
    (saveAllResults rows fs).netcdf = fs.netcdf := by
  unfold saveAllResults
  split <;> rfl

/-- Writing the combined file leaves the point CSV files untouched. -/
theorem saveAllResults_csv (rows : List CombRow) (fs : FS) :
    (saveAllResults rows fs).csv = fs.csv := by
  unfold saveAllResults
  split <;> rfl

theorem DedupInv_flush (st : RunState) (h : DedupInv st) :
    DedupInv { st with fs := saveAllResults st.allResults st.fs,
                       flushCount := st.flushCount + 1 } := by
  have hn : (saveAllResults st.allResults st.fs).netcdf = st.fs.netcdf :=
    saveAllResults_netcdf _ _
  refine ⟨h.1, ?_, ?_⟩
  · intro mid hm
    show (lookupK (saveAllResults st.allResults st.fs).netcdf mid).isSome = true
    rw [hn]
    exact h.2.1 mid hm
  · intro e he
    show lookupK (saveAllResults st.allResults st.fs).netcdf e.2.1 = some e.2.2
    rw [hn]
    exact h.2.2 e he

theorem DedupInv_runLoop (year : ℤ) (oracle : String → FetchOutcome)
    (hsucc : ∀ mid, ∃ a, oracle mid = .success a) (ws : List Loc) (st : RunState)
    (h : DedupInv st) : DedupInv (runLoop year oracle st ws) := by
  induction ws generalizing st with
  | nil => exact h
  | cons l rest ih => exact ih _ (DedupInv_step year oracle hsucc st l h)

/-- C2 (amended): in a run in which every fetch attempt succeeds, at most
one Fetcher invocation occurs per distinct cell id, and any two points of
the work-set whose cell id coincides have their series derived from the
same raw artifact (the one used is determined by the mesh id). -/
theorem c2_dedup_when_fetches_succeed (year : ℤ) (oracle : String → FetchOutcome)
    (start : FS) (input : List Loc) (resume : Bool)
    (hsucc : ∀ mid, ∃ a, oracle mid = .success a) :
    (∀ mid, (processLocations year oracle start input resume).fetchLog.count mid ≤ 1) ∧
    (∀ e1 e2, e1 ∈ (processLocations year oracle start input resume).used →
      e2 ∈ (processLocations year oracle start input resume).used →
      e1.2.1 = e2.2.1 → e1.2.2 = e2.2.2) := by
  have hinit : DedupInv (initState start) := by
    refine ⟨?_, ?_, ?_⟩
    · intro mid; simp [initState]
    · intro mid hm; simp [initState] at hm
    · intro e he; simp [initState] at he
  have hmain : DedupInv (processLocations year oracle start input resume) := by
    unfold processLocations
    by_cases hdf : (workSetOf input start resume).isEmpty
    · simp only [hdf, if_true]
      exact hinit
    · simp only [hdf, if_false]
      exact DedupInv_flush _ (DedupInv_runLoop year oracle hsucc
        (workSetOf input start resume) (initState start) hinit)
  refine ⟨hmain.1, ?_⟩
  intro e1 e2 h1 h2 hmesh
  have k1 := hmain.2.2 e1 h1
  have k2 := hmain.2.2 e2 h2
  rw [hmesh] at k1
  rw [k1] at k2
  exact (Option.some.injEq _ _).mp k2

/-- C2 witness: the all-success service on the two same-cell points. -/
theorem c2_witness :
    (∀ mid, ∃ a, oracleOk mid = .success a) ∧
    ((∀ mid,
        (processLocations 2010 oracleOk fs0 [locA, locA1] false).fetchLog.count mid ≤ 1) ∧
      (∀ e1 e2, e1 ∈ (processLocations 2010 oracleOk fs0 [locA, locA1] false).used →
        e2 ∈ (processLocations 2010 oracleOk fs0 [locA, locA1] false).used →
        e1.2.1 = e2.2.1 → e1.2.2 = e2.2.2)) :=
  ⟨fun _ => ⟨artFlat, rfl⟩,
    c2_dedup_when_fetches_succeed 2010 oracleOk fs0 [locA, locA1] false
      (fun _ => ⟨artFlat, rfl⟩)⟩

/-! ### C4: per-point error isolation and the final flush -/

/-- One aggregation either succeeds and records the point as saved, or
fails and appends an error-log entry carrying the point's id, latitude and
longitude; nothing else of the progress state changes. -/
theorem runAggregate_progress (year : ℤ) (st : RunState) (mid : String) (l : Loc) :
    ∃ okT errT,
      (runAggregate year st mid l).okPoints = st.okPoints ++ okT ∧
      (runAggregate year st mid l).errLog = st.errLog ++ errT ∧
      (runAggregate year st mid l).handled = st.handled ∧
      (runAggregate year st mid l).flushCount = st.flushCount ∧
      (l.no ∈ okT ∨ ∃ e ∈ errT, e.no = l.no ∧ e.lat = l.lat1 ∧ e.lon = l.lon1) := by
  rcases runAggregate_cases year st mid l with ⟨e, hn, hla, hlo, heq⟩ |
    ⟨a, monthly, s, _, _, heq⟩
  · rw [heq]
    exact ⟨[], [e], by simp, rfl, rfl, rfl, Or.inr ⟨e, by simp, hn, hla, hlo⟩⟩
  · rw [heq]
    exact ⟨[l.no], [], rfl, by simp, rfl, rfl, Or.inl (by simp)⟩

/-- Each loop iteration handles exactly one point: the progress counter
advances, the flush count is untouched, and the point ends up saved or
logged with its id and coordinates. -/
theorem processOne_progress (year : ℤ) (oracle : String → FetchOutcome)
    (st : RunState) (l : Loc) :
    ∃ okT errT,
      (processOneLocation year oracle st l).okPoints = st.okPoints ++ okT ∧
      (processOneLocation year oracle st l).errLog = st.errLog ++ errT ∧
      (processOneLocation year oracle st l).handled = st.handled + 1 ∧
      (processOneLocation year oracle st l).flushCount = st.flushCount ∧
      (l.no ∈ okT ∨ ∃ e ∈ errT, e.no = l.no ∧ e.lat = l.lat1 ∧ e.lon = l.lon1) := by
  obtain ⟨st', heq, hcases⟩ := processOne_cases year oracle st l
  rw [heq]
  rcases hcases with ⟨hpm, rfl⟩ | ⟨hpm, ⟨a, hnc⟩, rfl⟩ | ⟨hpm, hnc, a, hora, rfl⟩ |
    ⟨hpm, hnc, hora, rfl⟩ | ⟨hpm, hnc, a, hora, rfl⟩
  · obtain ⟨okT, errT, h1, h2, h3, h4, h5⟩ := runAggregate_progress year st _ l
    exact ⟨okT, errT, h1, h2, by rw [h3], h4, h5⟩
  · set mid := scriptGetMeshId l.lat1 l.lon1 with hmid
    set stX : RunState :=
      { st with processedMeshes := setK st.processedMeshes mid (ncPath mid) } with hstX
    obtain ⟨okT, errT, h1, h2, h3, h4, h5⟩ := runAggregate_progress year stX mid l
    exact ⟨okT, errT, h1, h2, by rw [h3], h4, h5⟩
  · set mid := scriptGetMeshId l.lat1 l.lon1 with hmid
    set stX : RunState := { st with
      fs := { st.fs with netcdf := setK st.fs.netcdf mid a },
      fetchLog := st.fetchLog ++ [mid],
      processedMeshes := setK st.processedMeshes mid (ncPath mid) } with hstX
    obtain ⟨okT, errT, h1, h2, h3, h4, h5⟩ := runAggregate_progress year stX mid l
    exact ⟨okT, errT, h1, h2, by rw [h3], h4, h5⟩
  · refine ⟨[], [⟨l.no, l.lat1, l.lon1, "RequestError"⟩], by simp, rfl, rfl, rfl, ?_⟩
    exact Or.inr ⟨⟨l.no, l.lat1, l.lon1, "RequestError"⟩, by simp, rfl, rfl, rfl⟩
  · refine ⟨[], [⟨l.no, l.lat1, l.lon1, "RequestError"⟩], by simp, rfl, rfl, rfl, ?_⟩
    exact Or.inr ⟨⟨l.no, l.lat1, l.lon1, "RequestError"⟩, by simp, rfl, rfl, rfl⟩

/-- The loop handles every point of the work-set: the counters add up, the
saved list and error log only grow, and each point is saved or logged. -/
theorem runLoop_progress (year : ℤ) (oracle : String → FetchOutcome)
    (ws : List Loc) (st : RunState) :
    (runLoop year oracle st ws).handled = st.handled + ws.length ∧
    (runLoop year oracle st ws).flushCount = st.flushCount ∧
    (∃ okT errT, (runLoop year oracle st ws).okPoints = st.okPoints ++ okT ∧
      (runLoop year oracle st ws).errLog = st.errLog ++ errT) ∧
    ∀ l ∈ ws, (l.no ∈ (runLoop year oracle st ws).okPoints ∨
      ∃ e ∈ (runLoop year oracle st ws).errLog,
        e.no = l.no ∧ e.lat = l.lat1 ∧ e.lon = l.lon1) := by
  induction ws generalizing st with
  | nil =>
      refine ⟨by simp [runLoop], rfl, ⟨[], [], by simp [runLoop], by simp [runLoop]⟩, ?_⟩
      intro l hl
      exact absurd hl (List.not_mem_nil l)
  | cons l rest ih =>
      have hstep : runLoop year oracle st (l :: rest) =
          runLoop year oracle (processOneLocation year oracle st l) rest := rfl
      obtain ⟨okT, errT, h1, h2, h3, h4, h5⟩ := processOne_progress year oracle st l
      obtain ⟨ih1, ih2, ⟨okT2, errT2, ihk, ihe⟩, ih4⟩ :=
        ih (processOneLocation year oracle st l)
      rw [hstep]
      refine ⟨?_, ?_, ⟨okT ++ okT2, errT ++ errT2, ?_, ?_⟩, ?_⟩
      · rw [ih1, h3]
        simp [Nat.add_assoc, Nat.add_comm 1 rest.length]
      · rw [ih2, h4]
      · rw [ihk, h1, List.append_assoc]
      · rw [ihe, h2, List.append_assoc]
      · intro l2 hl2
        rcases List.mem_cons.mp hl2 with hl2 | hl2
        · subst hl2
          rcases h5 with hok | ⟨e, he, hfields⟩
          · refine Or.inl ?_
            rw [ihk, h1]
            exact List.mem_append.mpr (Or.inl (List.mem_append.mpr (Or.inr hok)))
          · refine Or.inr ⟨e, ?_, hfields⟩
            rw [ihe, h2]
            exact List.mem_append.mpr (Or.inl (List.mem_append.mpr (Or.inr he)))
        · exact ih4 l2 hl2

/-- C4 (amended): for a non-empty work-set, every point of the work-set is
either saved or caught at the per-point boundary and logged with its id,
latitude and longitude, the loop reaches the end of the work-set, and
`save_all_results` is then called exactly once.  (When the work-set is
empty, `process_locations` returns before the flush.) -/
theorem c4_error_isolation_and_flush (year : ℤ) (oracle : String → FetchOutcome)
    (start : FS) (input : List Loc) (resume : Bool)
    (hne : workSetOf input start resume ≠ []) :
    (processLocations year oracle start input resume).flushCount = 1 ∧
    (processLocations year oracle start input resume).handled =
      (workSetOf input start resume).length ∧
    ∀ l ∈ workSetOf input start resume,
      (l.no ∈ (processLocations year oracle start input resume).okPoints ∨
       ∃ e ∈ (processLocations year oracle start input resume).errLog,
         e.no = l.no ∧ e.lat = l.lat1 ∧ e.lon = l.lon1) := by
  have hdf : (workSetOf input start resume).isEmpty = false := by
    cases h2 : (workSetOf input start resume).isEmpty with
    | false => rfl
    | true => exact absurd (List.isEmpty_iff.mp h2) hne
  unfold processLocations
  simp only [hdf]
  obtain ⟨p1, p2, ⟨okT, errT, p3, p4⟩, p5⟩ :=
    runLoop_progress year oracle (workSetOf input start resume) (initState start)
  refine ⟨?_, ?_, ?_⟩
  · show (runLoop year oracle (initState start) (workSetOf input start resume)).flushCount
      + 1 = 1
    rw [p2]
    rfl
  · show (runLoop year oracle (initState start) (workSetOf input start resume)).handled =
      (workSetOf input start resume).length
    rw [p1]
    simp [initState]
  · intro l hl
    exact p5 l hl

/-- C4 witness: a singleton work-set over a fresh directory. -/
theorem c4_witness :
    (workSetOf [locA] fs0 false ≠ []) ∧
    ((processLocations 2010 oracleOk fs0 [locA] false).flushCount = 1 ∧
     (processLocations 2010 oracleOk fs0 [locA] false).handled =
       (workSetOf [locA] fs0 false).length ∧
     ∀ l ∈ workSetOf [locA] fs0 false,
       (l.no ∈ (processLocations 2010 oracleOk fs0 [locA] false).okPoints ∨
        ∃ e ∈ (processLocations 2010 oracleOk fs0 [locA] false).errLog,
          e.no = l.no ∧ e.lat = l.lat1 ∧ e.lon = l.lon1)) :=
  ⟨by decide, c4_error_isolation_and_flush 2010 oracleOk fs0 [locA] false (by decide)⟩

/-! ### C8: the combined annual rows versus the persisted per-point annuals -/

/-- The `groupby` key of one point's buffered rows. -/
def keyOf (year : ℤ) (l : Loc) : GKey := ⟨l.no, l.lat1, l.lon1, l.name, year⟩

theorem monthRowsComb_map_value (year : ℤ) (l : Loc) (m0 : ℕ) (vs : List ℚ) :
    (monthRowsComb year l m0 vs).map (fun r => r.value) = vs := by
  induction vs generalizing m0 with
  | nil => rfl
  | cons v vs ih => simp [monthRowsComb, ih]

theorem monthRowsComb_mem (year : ℤ) (l : Loc) (m0 : ℕ) (vs : List ℚ) (r : CombRow)
    (hr : r ∈ monthRowsComb year l m0 vs) :
    rowKey r = keyOf year l ∧ r.month ≠ .annual ∧ r.no = l.no := by
  induction vs generalizing m0 with
  | nil => exact absurd hr (List.not_mem_nil r)
  | cons v vs ih =>
      rcases List.mem_cons.mp hr with h | h
      · subst h
        exact ⟨rfl, fun hh => MonthCol.noConfusion hh, rfl⟩
      · exact ih (m0 + 1) h

/-- Invariant of the loop: the buffered rows of each `groupby` key are
exactly one point's twelve monthly rows, and that point's CSV file holds
the same series together with its sum as the annual value. -/
def CombInv (year : ℤ) (st : RunState) : Prop :=
  ∀ k : GKey,
    st.allResults.filter (fun r => rowKey r = k) = [] ∨
    ∃ l m, k = keyOf year l ∧
      st.allResults.filter (fun r => rowKey r = k) = monthRowsComb year l 1 m ∧
      lookupK st.fs.csv k.no = some (ptRows l m m.sum)

/-- No buffered row belongs to a point that is still to be processed. -/
def NosInv (st : RunState) (rest : List Loc) : Prop :=
  ∀ r ∈ st.allResults, r.no ∉ rest.map (fun x => x.no)

theorem NosInv_weaken (st : RunState) (l : Loc) (rest : List Loc)
    (h : NosInv st (l :: rest)) : NosInv st rest :=
  fun r hr hmem => h r hr (List.mem_cons_of_mem _ hmem)

theorem combInv_runAggregate (year : ℤ) (st : RunState) (mid : String) (l : Loc)
    (rest : List Loc) (hInv : CombInv year st) (hNos : NosInv st (l :: rest))
    (hnodup : l.no ∉ rest.map (fun x => x.no)) :
    CombInv year (runAggregate year st mid l) ∧
    NosInv (runAggregate year st mid l) rest := by
  rcases runAggregate_cases year st mid l with ⟨e, _, _, _, heq⟩ |
    ⟨a, monthly, s, hnc, hok, heq⟩
  · rw [heq]
    exact ⟨hInv, NosInv_weaken st l rest hNos⟩
  · have hsum : s = monthly.sum := processPrecip_ok_sum a l.lat1 l.lon1 monthly s hok
    subst hsum
    rw [heq]
    constructor
    · intro k
      show (st.allResults ++ monthRowsComb year l 1 monthly).filter
          (fun r => rowKey r = k) = [] ∨ _
      rw [List.filter_append]
      by_cases hk : k = keyOf year l
      · subst hk
        have hOld : st.allResults.filter (fun r => rowKey r = keyOf year l) = [] := by
          rw [List.filter_eq_nil_iff]
          intro r hr hpred
          have heq2 : rowKey r = keyOf year l := of_decide_eq_true hpred
          have hrno : r.no = l.no := congrArg GKey.no heq2
          apply hNos r hr
          rw [hrno]
          exact List.mem_cons_self _ _
        have hNew : (monthRowsComb year l 1 monthly).filter
            (fun r => rowKey r = keyOf year l) = monthRowsComb year l 1 monthly := by
          rw [List.filter_eq_self]
          intro r hr
          exact decide_eq_true (monthRowsComb_mem year l 1 monthly r hr).1
        rw [hOld, hNew, List.nil_append]
        refine Or.inr ⟨l, monthly, rfl, rfl, ?_⟩
        show lookupK (setK st.fs.csv l.no (ptRows l monthly monthly.sum)) l.no = _
        rw [lookupK_setK_self]
      · have hNew : (monthRowsComb year l 1 monthly).filter
            (fun r => rowKey r = k) = [] := by
          rw [List.filter_eq_nil_iff]
          intro r hr hpred
          exact hk ((of_decide_eq_true hpred).symm.trans
            (monthRowsComb_mem year l 1 monthly r hr).1)
        rw [hNew, List.append_nil]
        rcases hInv k with hL | ⟨l2, m2, hk2, hfil, hcsv⟩
        · exact Or.inl hL
        · cases m2 with
          | nil =>
              refine Or.inl ?_
              rw [hfil]
              rfl
          | cons v vs =>
              refine Or.inr ⟨l2, v :: vs, hk2, hfil, ?_⟩
              have hr0 : (⟨l2.no, l2.lat1, l2.lon1, l2.name, .month 1, year, v⟩ : CombRow) ∈
                  st.allResults.filter (fun r => rowKey r = k) := by
                rw [hfil]
                exact List.mem_cons_self _ _
              have hr0mem : (⟨l2.no, l2.lat1, l2.lon1, l2.name, .month 1, year, v⟩ :
                  CombRow) ∈ st.allResults := (List.mem_filter.mp hr0).1
              have hNotIn := hNos _ hr0mem
              have hkno : k.no = l2.no := by rw [hk2]; rfl
              have hne : l.no ≠ k.no := by
                intro hEq
                apply hNotIn
                show l2.no ∈ _
                rw [← hkno, ← hEq]
                exact List.mem_cons_self _ _
              show lookupK (setK st.fs.csv l.no (ptRows l monthly monthly.sum)) k.no = _
              rw [lookupK_setK_ne _ _ _ _ hne]
              exact hcsv
    · intro r hr hmem
      rcases List.mem_append.mp hr with h1 | h1
      · exact hNos r h1 (List.mem_cons_of_mem _ hmem)
      · have hrno : r.no = l.no := (monthRowsComb_mem year l 1 monthly r h1).2.2
        rw [hrno] at hmem
        exact hnodup hmem

theorem combInv_step (year : ℤ) (oracle : String → FetchOutcome) (st : RunState)
    (l : Loc) (rest : List Loc) (hInv : CombInv year st) (hNos : NosInv st (l :: rest))
    (hnodup : l.no ∉ rest.map (fun x => x.no)) :
    CombInv year (processOneLocation year oracle st l) ∧
    NosInv (processOneLocation year oracle st l) rest := by
  obtain ⟨st', heq, hcases⟩ := processOne_cases year oracle st l
  rw [heq]
  have hbump : (CombInv year st' ∧ NosInv st' rest) →
      (CombInv year { st' with handled := st'.handled + 1 } ∧
       NosInv { st' with handled := st'.handled + 1 } rest) := fun hh => hh
  apply hbump
  rcases hcases with ⟨hpm, rfl⟩ | ⟨hpm, ⟨a, hnc⟩, rfl⟩ | ⟨hpm, hnc, a, hora, rfl⟩ |
    ⟨hpm, hnc, hora, rfl⟩ | ⟨hpm, hnc, a, hora, rfl⟩
  · exact combInv_runAggregate year st _ l rest hInv hNos hnodup
  · exact combInv_runAggregate year _ _ l rest hInv hNos hnodup
  · exact combInv_runAggregate year _ _ l rest hInv hNos hnodup
  · exact ⟨hInv, NosInv_weaken st l rest hNos⟩
  · exact ⟨hInv, NosInv_weaken st l rest hNos⟩

theorem combInv_runLoop (year : ℤ) (oracle : String → FetchOutcome) (ws : List Loc)
    (st : RunState) (hnodup : (ws.map (fun x => x.no)).Nodup)
    (hInv : CombInv year st) (hNos : NosInv st ws) :
    CombInv year (runLoop year oracle st ws) := by
  induction ws generalizing st with
  | nil => exact hInv
  | cons l rest ih =>
      have hnd := List.nodup_cons.mp hnodup
      obtain ⟨h1, h2⟩ := combInv_step year oracle st l rest hInv hNos hnd.1
      exact ih (processOneLocation year oracle st l) hnd.2 h1 h2

theorem runAggregate_combined (year : ℤ) (st : RunState) (mid : String) (l : Loc) :
    (runAggregate year st mid l).fs.combined = st.fs.combined := by
  rcases runAggregate_cases year st mid l with ⟨e, _, _, _, heq⟩ | ⟨a, m, s, _, _, heq⟩ <;>
    rw [heq]

theorem processOne_combined (year : ℤ) (oracle : String → FetchOutcome)
    (st : RunState) (l : Loc) :
    (processOneLocation year oracle st l).fs.combined = st.fs.combined := by
  obtain ⟨st', heq, hcases⟩ := processOne_cases year oracle st l
  rw [heq]
  show st'.fs.combined = st.fs.combined
  rcases hcases with ⟨hpm, rfl⟩ | ⟨hpm, ⟨a, hnc⟩, rfl⟩ | ⟨hpm, hnc, a, hora, rfl⟩ |
    ⟨hpm, hnc, hora, rfl⟩ | ⟨hpm, hnc, a, hora, rfl⟩
  · exact runAggregate_combined year st _ l
  · exact runAggregate_combined year _ _ l
  · exact runAggregate_combined year _ _ l
  · rfl
  · rfl

theorem runLoop_combined (year : ℤ) (oracle : String → FetchOutcome) (ws : List Loc)
    (st : RunState) : (runLoop year oracle st ws).fs.combined = st.fs.combined := by
  induction ws generalizing st with
  | nil => rfl
  | cons l rest ih =>
      have : runLoop year oracle st (l :: rest) =
        runLoop year oracle (processOneLocation year oracle st l) rest := rfl
      rw [this, ih, processOne_combined]

/-- Every buffered row is a monthly row. -/
theorem combInv_not_annual (year : ℤ) (st : RunState) (hInv : CombInv year st) :
    ∀ r ∈ st.allResults, r.month ≠ MonthCol.annual := by
  intro r hr
  have hrK : r ∈ st.allResults.filter (fun x => rowKey x = rowKey r) :=
    List.mem_filter.mpr ⟨hr, decide_eq_true rfl⟩
  rcases hInv (rowKey r) with hL | ⟨l2, m2, _, hfil, _⟩
  · rw [hL] at hrK
    exact absurd hrK (List.not_mem_nil r)
  · rw [hfil] at hrK
    exact (monthRowsComb_mem year l2 1 m2 r hrK).2.1

/-- C8 (amended): in a run over a work-set with pairwise-distinct point ids
(and no stale combined file), every annual row of the combined output —
derived by summing the point's buffered monthly rows — equals the annual
value persisted in that point's CSV file exactly. -/
theorem c8_round_trip_distinct_ids (year : ℤ) (oracle : String → FetchOutcome)
    (start : FS) (input : List Loc) (resume : Bool)
    (hnodup : ((workSetOf input start resume).map (fun x => x.no)).Nodup)
    (hcomb : start.combined = none) :
    ∀ r ∈ combinedRows (processLocations year oracle start input resume),
      r.month = MonthCol.annual →
      ∃ pr, lookupK (processLocations year oracle start input resume).fs.csv r.no
          = some pr ∧
        (⟨r.no, r.lat, r.lon, r.locName, .annual, r.value⟩ : PtRow) ∈ pr := by
  cases hdf : (workSetOf input start resume).isEmpty with
  | true =>
      unfold processLocations
      simp only [hdf]
      intro r hr _
      have hr2 : r ∈ (start.combined.getD []) := hr
      rw [hcomb] at hr2
      exact absurd hr2 (List.not_mem_nil r)
  | false =>
      unfold processLocations
      simp only [hdf]
      have hInit : CombInv year (initState start) := fun k => Or.inl rfl
      have hNosInit : NosInv (initState start) (workSetOf input start resume) :=
        fun r hr => absurd hr (List.not_mem_nil r)
      have hloopInv := combInv_runLoop year oracle (workSetOf input start resume)
        (initState start) hnodup hInit hNosInit
      set stEnd := runLoop year oracle (initState start) (workSetOf input start resume)
        with hstEnd
      intro r hr hann
      have hr2 : r ∈ ((saveAllResults stEnd.allResults stEnd.fs).combined.getD []) := hr
      cases hA : stEnd.allResults.isEmpty with
      | true =>
          have hcomb2 : stEnd.fs.combined = none := by
            rw [hstEnd, runLoop_combined]
            exact hcomb
          have hsv : saveAllResults stEnd.allResults stEnd.fs = stEnd.fs := by
            simp [saveAllResults, hA]
          rw [hsv, hcomb2] at hr2
          exact absurd hr2 (List.not_mem_nil r)
      | false =>
          have hallMon := combInv_not_annual year stEnd hloopInv
          have hMR : monthlyOf stEnd.allResults = stEnd.allResults := by
            rw [monthlyOf, List.filter_eq_self]
            intro x hx
            simp [hallMon x hx]
          have hsv : (saveAllResults stEnd.allResults stEnd.fs).combined =
              some (monthlyOf stEnd.allResults ++ annualRowsOf stEnd.allResults) := by
            simp [saveAllResults, hA]
          rw [hsv, Option.getD_some] at hr2
          rcases List.mem_append.mp hr2 with hmon | hannrow
          · rw [hMR] at hmon
            exact absurd hann (hallMon r hmon)
          · rw [annualRowsOf, hMR] at hannrow
            obtain ⟨k, hk, hrk⟩ := List.mem_map.mp hannrow
            have hkmem : k ∈ stEnd.allResults.map rowKey := List.mem_dedup.mp hk
            obtain ⟨r0, hr0, hr0k⟩ := List.mem_map.mp hkmem
            have hgrpNe : stEnd.allResults.filter (fun x => rowKey x = k) ≠ [] := by
              intro hnil
              have hmm : r0 ∈ stEnd.allResults.filter (fun x => rowKey x = k) :=
                List.mem_filter.mpr ⟨hr0, decide_eq_true hr0k⟩
              rw [hnil] at hmm
              exact absurd hmm (List.not_mem_nil r0)
            rcases hloopInv k with hL | ⟨l2, m2, hk2, hfil, hcsv⟩
            · exact absurd hL hgrpNe
            · have hval : ((stEnd.allResults.filter (fun x => rowKey x = k)).map
                  (fun x => x.value)).sum = m2.sum := by
                rw [hfil, monthRowsComb_map_value]
              refine ⟨ptRows l2 m2 m2.sum, ?_, ?_⟩
              · show lookupK (saveAllResults stEnd.allResults stEnd.fs).csv r.no = _
                rw [saveAllResults_csv]
                have hrno : r.no = k.no := by rw [← hrk]
                rw [hrno, hk2]
                show lookupK stEnd.fs.csv (keyOf year l2).no = _
                have hpr : (keyOf year l2).no = k.no := by rw [hk2]
                rw [hpr]
                exact hcsv
              · rw [← hrk]
                show (⟨k.no, k.lat, k.lon, k.locName, .annual,
                  ((stEnd.allResults.filter (fun x => rowKey x = k)).map
                    (fun x => x.value)).sum⟩ : PtRow) ∈ ptRows l2 m2 m2.sum
                rw [hval, hk2]
                exact List.mem_append.mpr (Or.inr (List.mem_cons_self _ _))

/-- C8 witness: two distinct points over a fresh directory. -/
theorem c8_witness :
    (((workSetOf [locA, locB] fs0 false).map (fun x => x.no)).Nodup) ∧
    fs0.combined = none ∧
    ∀ r ∈ combinedRows (processLocations 2010 oracleOk fs0 [locA, locB] false),
      r.month = MonthCol.annual →
      ∃ pr, lookupK (processLocations 2010 oracleOk fs0 [locA, locB] false).fs.csv r.no
          = some pr ∧
        (⟨r.no, r.lat, r.lon, r.locName, .annual, r.value⟩ : PtRow) ∈ pr :=
  ⟨by decide, rfl,
    c8_round_trip_distinct_ids 2010 oracleOk fs0 [locA, locB] false (by decide) rfl⟩

end GeoCmd
